import Mathlib

/-!
Verification of the any2avif conversion microservice (`src/app.py`).

The development shallowly embeds the service's validation, conversion
orchestration and HTTP endpoint handlers.  The external image library
(decode / AVIF encode) is abstracted as a `Codec` record of fallible
functions, exactly as the spec's "codec adapter" contract describes;
the parts of the Python standard library and Pillow that the source
calls with fixed arguments (`pathlib.Path.suffix` / `.stem`,
`str.lower`, `base64.b64encode`, `Image.thumbnail((300, 300))`) are
embedded as executable Lean functions following their documented
semantics, since the source's behavior depends on them.
Bytes are modelled as `List ℕ` with values below 256,
HTTP error responses as a status code plus detail string, and Python
exceptions as `Except` errors carrying the exception message.
-/

namespace Any2Avif

/-- Decidable equality of `Except` results, for evaluating the model on
concrete inputs. -/
instance {ε α : Type} [DecidableEq ε] [DecidableEq α] : DecidableEq (Except ε α)
  | .ok a, .ok b =>
      if h : a = b then isTrue (by rw [h])
      else isFalse (by intro c; cases c; exact h rfl)
  | .error a, .error b =>
      if h : a = b then isTrue (by rw [h])
      else isFalse (by intro c; cases c; exact h rfl)
  | .ok _, .error _ => isFalse (by intro c; cases c)
  | .error _, .ok _ => isFalse (by intro c; cases c)

/-- An HTTP error response: FastAPI's `HTTPException(status_code, detail)`. -/
structure HTTPError where
  status_code : ℕ
  detail : String
deriving DecidableEq, Repr

/-- A decoded image as the source observes it through Pillow: width and
height in pixels plus the color mode string (`"RGB"`, `"RGBA"`, `"P"`, ...).
Pixel contents never influence the control flow of the source, so they are
not modelled; the codec adapter consumes the whole image description. -/
structure PILImage where
  width : ℕ
  height : ℕ
  mode : String
deriving DecidableEq, Repr

/-- `img.convert(mode)` from Pillow: returns an image of the same size in the
requested mode. -/
def PILImage.convert (img : PILImage) (m : String) : PILImage :=
  { img with mode := m }

/-- The external image codec: `Image.open` over the staged temp file
(decoding the uploaded bytes) and `img.save(format='AVIF', quality, speed)`
(encoding to AVIF bytes).  Either call may raise; the error string is the
exception message `str(e)`. -/
structure Codec where
  decode : List ℕ → Except String PILImage
  encodeAVIF : PILImage → ℕ → ℕ → Except String (List ℕ)

/-- One produced variant: the dict
`{'data': ..., 'filename': ..., 'size': ...}` built by the source. -/
structure Variant where
  data : List ℕ
  filename : String
  size : ℕ
deriving DecidableEq, Repr

/-- FastAPI's `UploadFile` as the handlers use it: `filename` and `size`
may be absent, `content` is what `await file.read()` returns. -/
structure UploadFile where
  filename : Option String
  size : Option ℕ
  content : List ℕ
deriving DecidableEq, Repr

/-- Python `a or b` on an optional string: `None` and `""` are falsy. -/
def pyOrStr (o : Option String) (d : String) : String :=
  match o with
  | none => d
  | some s => if s = "" then d else s

/-- Python truthiness of an optional string (`if not file.filename`). -/
def pyTruthyOptStr : Option String → Bool
  | none => false
  | some s => decide (s ≠ "")

/-- The final path component, `pathlib.PurePath.name`. -/
def pyName (s : String) : String :=
  ⟨(s.data.reverse.takeWhile (fun c => c ≠ '/')).reverse⟩

/-- `pathlib.PurePath.suffix`: the last dot-suffix of the final component,
empty when the name has no dot, starts with its only dot, or ends with a
dot. -/
def pySuffix (s : String) : String :=
  let name := (pyName s).data
  let after := name.reverse.takeWhile (fun c => c ≠ '.')
  if after.length = name.length then ""
  else
    let i := name.length - 1 - after.length
    if 0 < i ∧ i < name.length - 1 then ⟨name.drop i⟩ else ""

/-- `pathlib.PurePath.stem`: the final component without its `pySuffix`. -/
def pyStem (s : String) : String :=
  let name := (pyName s).data
  let after := name.reverse.takeWhile (fun c => c ≠ '.')
  if after.length = name.length then ⟨name⟩
  else
    let i := name.length - 1 - after.length
    if 0 < i ∧ i < name.length - 1 then ⟨name.take i⟩ else ⟨name⟩

/-- `str.lower()` on the ASCII extension strings the source compares.
(Defined over the character list so that it reduces definitionally.) -/
def pyLower (s : String) : String :=
  ⟨s.data.map Char.toLower⟩

/-- `MAX_FILE_SIZE = 50 * 1024 * 1024` from `src/app.py`. -/
def MAX_FILE_SIZE : ℕ := 50 * 1024 * 1024

/-- `ALLOWED_EXTENSIONS` from `src/app.py` (a Python set literal; modelled
as a list, membership is all that is ever used). -/
def ALLOWED_EXTENSIONS : List String :=
  [".heic", ".heif", ".HEIC", ".HEIF", ".jpg", ".jpeg", ".JPG", ".JPEG"]

/-- The detail string of the invalid-type rejection in `validate_heic_file`.
The source interpolates `', '.join(ALLOWED_EXTENSIONS)`; Python set
iteration order is unspecified, so the model fixes the literal's order. -/
def heicInvalidDetail : String :=
  "Invalid file type. Allowed: .heic, .heif, .HEIC, .HEIF, .jpg, .jpeg, .JPG, .JPEG"

/-- The size guard `if file.size and file.size > MAX_FILE_SIZE`: a missing
(`None`) or zero size is falsy and passes. -/
def pySizeCheckFails (size : Option ℕ) : Bool :=
  match size with
  | none => false
  | some n => decide (n ≠ 0) && decide (MAX_FILE_SIZE < n)

/-- Spec-side predicate: the declared size is known and exceeds the limit. -/
def sizeKnownExceeds (size : Option ℕ) : Bool :=
  match size with
  | none => false
  | some n => decide (MAX_FILE_SIZE < n)

/-- The lowercased extension validation computes:
`Path(file.filename or "").suffix.lower()`. -/
def lowerExt (f : UploadFile) : String :=
  pyLower (pySuffix (pyOrStr f.filename ""))

/-- `validate_heic_file` from `src/app.py` (lines 79-94): extension
allow-list first, then the declared-size guard. -/
def validate_heic_file (file : UploadFile) : Except HTTPError Unit :=
  if pyLower (pySuffix (pyOrStr file.filename "")) ∉ ALLOWED_EXTENSIONS then
    .error ⟨400, heicInvalidDetail⟩
  else if pySizeCheckFails file.size then
    .error ⟨413, "File too large. Maximum size: 50MB"⟩
  else
    .ok ()

/-- `validate_jpeg_file` from `src/app.py` (lines 187-205): missing or
empty filename, then extension, then the declared-size guard. -/
def validate_jpeg_file (file : UploadFile) : Except HTTPError Unit :=
  if pyTruthyOptStr file.filename = false then
    .error ⟨400, "No filename provided"⟩
  else if pyLower (pySuffix (pyOrStr file.filename "")) ∉ [".jpg", ".jpeg"] then
    .error ⟨400, "Invalid file type. Expected JPEG file, got " ++
      pyLower (pySuffix (pyOrStr file.filename ""))⟩
  else if pySizeCheckFails file.size then
    .error ⟨413, "File too large. Max size: 50MB"⟩
  else
    .ok ()

/-- The mode normalization both converters perform before encoding
(`src/app.py` lines 114-117 and 230-233):
`if img.mode not in ('RGB', 'RGBA'): img = img.convert('RGB')`. -/
def normalizeMode (img : PILImage) : PILImage :=
  if img.mode = "RGB" ∨ img.mode = "RGBA" then img else img.convert "RGB"

/-- The `round_aspect` helper inside Pillow's `Image.thumbnail`:
`max(min(math.floor(number), math.ceil(number), key=key), 1)` (Python's
two-argument `min` with a key returns the first argument on ties).
Exact rational arithmetic stands in for the library's float arithmetic. -/
def roundAspect (number : ℚ) (key : ℕ → ℚ) : ℕ :=
  max (if key ⌊number⌋.toNat ≤ key ⌈number⌉.toNat then ⌊number⌋.toNat
       else ⌈number⌉.toNat) 1

/-- Pillow's `Image.thumbnail((300, 300), ...)` dimension computation: no-op
when the image already fits the box, otherwise pin the constraining side to
300 and round the other from the exact aspect ratio. -/
def pilThumbnail (w h : ℕ) : ℕ × ℕ :=
  if 300 ≥ w ∧ 300 ≥ h then (w, h)
  else if (300 : ℚ) / 300 ≥ (w : ℚ) / (h : ℚ) then
    (roundAspect (300 * ((w : ℚ) / (h : ℚ)))
      (fun n => |(w : ℚ) / (h : ℚ) - (n : ℚ) / 300|), 300)
  else
    (300, roundAspect (300 / ((w : ℚ) / (h : ℚ)))
      (fun n => if n = 0 then 0 else |(w : ℚ) / (h : ℚ) - (300 : ℚ) / (n : ℚ)|))

/-- `thumbnail_img.thumbnail((300, 300), Image.Resampling.LANCZOS)` applied
to a copy of the (mode-normalized) image. -/
def PILImage.thumbnailTo300 (img : PILImage) : PILImage :=
  { img with
    width := (pilThumbnail img.width img.height).1,
    height := (pilThumbnail img.width img.height).2 }

/-- The compression statistic `(1 - full_size / input_size) * 100`
(`src/app.py` line 166 resp. 282).  Python's true division raises
`ZeroDivisionError("division by zero")` on a zero divisor; there is no
guard in the source. -/
def compressionRatio (output_size input_size : ℕ) : Except String ℚ :=
  if input_size = 0 then .error "division by zero"
  else .ok ((1 - (output_size : ℚ) / (input_size : ℚ)) * 100)

/-- The conversion body shared verbatim by `convert_heic_to_avif_bytes`
(lines 101-170) and `convert_jpeg_to_avif_bytes` (lines 218-286): decode,
normalize the mode, encode the full variant at quality 80 / speed 6, build
the 300 px thumbnail and encode it likewise, compute the compression
statistic, and return the insertion-ordered variants dict. -/
def convertPipeline (codec : Codec) (data : List ℕ) (filename : String) :
    Except String (List (String × Variant)) :=
  match codec.decode data with
  | .error e => .error e
  | .ok img0 =>
    match codec.encodeAVIF (normalizeMode img0) 80 6 with
    | .error e => .error e
    | .ok full_data =>
      match codec.encodeAVIF (normalizeMode img0).thumbnailTo300 80 6 with
      | .error e => .error e
      | .ok thumb_data =>
        match compressionRatio full_data.length data.length with
        | .error e => .error e
        | .ok _ =>
          .ok [("full", ⟨full_data, pyStem filename ++ ".avif", full_data.length⟩),
               ("thumbnail",
                ⟨thumb_data, pyStem filename ++ "_thumb.avif", thumb_data.length⟩)]

/-- `convert_heic_to_avif_bytes` (`src/app.py` lines 96-185): the whole
pipeline runs inside `try/except Exception`, and any failure is re-raised
as `HTTPException(500, f"Conversion failed: {e}")`. -/
def convert_heic_to_avif_bytes (codec : Codec) (heic_data : List ℕ)
    (original_filename : String) : Except HTTPError (List (String × Variant)) :=
  match convertPipeline codec heic_data original_filename with
  | .ok v => .ok v
  | .error e => .error ⟨500, "Conversion failed: " ++ e⟩

/-- `convert_jpeg_to_avif_bytes` (`src/app.py` lines 207-294): the same
pipeline, but with no `except` clause — conversion errors propagate to the
caller as raw exceptions (its `finally` only cleans up temp files). -/
def convert_jpeg_to_avif_bytes (codec : Codec) (jpeg_data : List ℕ)
    (filename : String) : Except String (List (String × Variant)) :=
  convertPipeline codec jpeg_data filename

/-- One entry of the JSON response's `variants` array. -/
structure VariantJSON where
  variant : String
  filename : String
  content : String
  size : ℕ
  mimetype : String
deriving DecidableEq, Repr

/-- The JSON body of a successful `/convert` or `/convert-jpeg` response. -/
structure ConvertResponse where
  success : Bool
  original_filename : Option String
  variants : List VariantJSON
deriving DecidableEq, Repr

/-- The streamed response of `/convert-stream`: body chunks concatenated,
media type, and the two explicitly set headers. -/
structure StreamResponse where
  body : String
  media_type : String
  content_disposition : String
  content_length : String
deriving DecidableEq, Repr

/-- The RFC 4648 base64 alphabet, as `base64.b64encode` uses. -/
def b64Char (n : ℕ) : Char :=
  if n < 26 then Char.ofNat ('A'.toNat + n)
  else if n < 52 then Char.ofNat ('a'.toNat + (n - 26))
  else if n < 62 then Char.ofNat ('0'.toNat + (n - 52))
  else if n = 62 then '+'
  else '/'

/-- Value of a base64 alphabet character (inverse of `b64Char`). -/
def b64Val (c : Char) : ℕ :=
  if 'A' ≤ c ∧ c ≤ 'Z' then c.toNat - 'A'.toNat
  else if 'a' ≤ c ∧ c ≤ 'z' then c.toNat - 'a'.toNat + 26
  else if '0' ≤ c ∧ c ≤ '9' then c.toNat - '0'.toNat + 52
  else if c = '+' then 62
  else if c = '/' then 63
  else 0

/-- Standard base64 encoding of a byte list, three bytes to four characters
with `'='` padding: `base64.b64encode(data).decode('utf-8')`. -/
def b64encodeList : List ℕ → List Char
  | [] => []
  | [a] => [b64Char (a / 4), b64Char (a % 4 * 16), '=', '=']
  | [a, b] => [b64Char (a / 4), b64Char (a % 4 * 16 + b / 16),
      b64Char (b % 16 * 4), '=']
  | a :: b :: c :: rest =>
      b64Char (a / 4) :: b64Char (a % 4 * 16 + b / 16) ::
      b64Char (b % 16 * 4 + c / 64) :: b64Char (c % 64) :: b64encodeList rest

/-- Standard base64 decoding, consuming four characters at a time and
honoring terminal `'='` padding. -/
def b64decodeList : List Char → List ℕ
  | w :: x :: y :: z :: rest =>
      if z = '=' ∧ rest = [] then
        if y = '=' then [b64Val w * 4 + b64Val x / 16]
        else [b64Val w * 4 + b64Val x / 16, b64Val x % 16 * 16 + b64Val y / 4]
      else
        (b64Val w * 4 + b64Val x / 16) ::
        (b64Val x % 16 * 16 + b64Val y / 4) ::
        (b64Val y % 4 * 64 + b64Val z) ::
        b64decodeList rest
  | _ => []

/-- `base64.b64encode(data).decode('utf-8')` as a string. -/
def b64encode (l : List ℕ) : String := ⟨b64encodeList l⟩

/-- Base64 decoding of a string back to bytes. -/
def b64decode (s : String) : List ℕ := b64decodeList s.data

/-- The response-shaping loop of `convert_image` / `convert_jpeg_image`
(lines 342-350 resp. 431-439): one JSON entry per variant. -/
def mkVariantJSON (p : String × Variant) : VariantJSON :=
  ⟨p.1, p.2.filename, b64encode p.2.data, p.2.size, "image/avif"⟩

/-- `POST /convert` (`convert_image`, lines 313-359): validate, convert,
shape the JSON response.  `convert_heic_to_avif_bytes` only raises
`HTTPException`, which the handler re-raises unchanged. -/
def convert_image (codec : Codec) (file : UploadFile) :
    Except HTTPError ConvertResponse :=
  match validate_heic_file file with
  | .error e => .error e
  | .ok _ =>
    match convert_heic_to_avif_bytes codec file.content
        (pyOrStr file.filename "image") with
    | .error e => .error e
    | .ok variants =>
        .ok { success := true, original_filename := file.filename,
              variants := variants.map mkVariantJSON }

/-- `POST /convert-stream` (`convert_image_stream`, lines 361-400).  Line
381 tuple-unpacks the two-entry variants dict, which in Python yields its
KEYS in insertion order: `avif_data = "full"`, `output_filename =
"thumbnail"`.  The streamed body is therefore the four-character string
`"full"`; a dict of any other arity would raise `ValueError`, caught by
the generic handler as `HTTPException(500, "Internal server error")`. -/
def convert_image_stream (codec : Codec) (file : UploadFile) :
    Except HTTPError StreamResponse :=
  match validate_heic_file file with
  | .error e => .error e
  | .ok _ =>
    match convert_heic_to_avif_bytes codec file.content
        (pyOrStr file.filename "image") with
    | .error e => .error e
    | .ok variants =>
      match variants with
      | [(avif_data, _), (output_filename, _)] =>
          .ok { body := avif_data,
                media_type := "image/avif",
                content_disposition := "attachment; filename=" ++ output_filename,
                content_length := toString avif_data.length }
      | _ => .error ⟨500, "Internal server error"⟩

/-- `POST /convert-jpeg` (`convert_jpeg_image`, lines 402-448): validation
raises `HTTPException` directly; conversion runs inside
`try/except Exception`, so a raw conversion error surfaces as
`HTTPException(500, "Internal server error")`. -/
def convert_jpeg_image (codec : Codec) (file : UploadFile) :
    Except HTTPError ConvertResponse :=
  match validate_jpeg_file file with
  | .error e => .error e
  | .ok _ =>
    match convert_jpeg_to_avif_bytes codec file.content
        (pyOrStr file.filename "image") with
    | .error _ => .error ⟨500, "Internal server error"⟩
    | .ok variants =>
        .ok { success := true, original_filename := file.filename,
              variants := variants.map mkVariantJSON }

/-- A concrete well-behaved codec for witnesses: decoding always yields a
100×80 RGB image, encoding yields two bytes derived from the dimensions. -/
def demoCodec : Codec where
  decode := fun _ => .ok ⟨100, 80, "RGB"⟩
  encodeAVIF := fun img _ _ => .ok [img.width % 256, img.height % 256]

/-- A codec whose decoder always raises `boom`, for error-path witnesses. -/
def failCodec : Codec where
  decode := fun _ => .error "boom"
  encodeAVIF := fun _ _ _ => .ok []

/-- A demonstration upload: `photo.heic`, declared size 1000, three bytes. -/
def demoHeicFile : UploadFile :=
  { filename := some "photo.heic", size := some 1000, content := [1, 2, 3] }

/-- A demonstration upload: `photo.jpg`, declared size 1000, three bytes. -/
def demoJpegFile : UploadFile :=
  { filename := some "photo.jpg", size := some 1000, content := [1, 2, 3] }

/-- The successful `/convert` response for the demonstration upload. -/
def demoResp : ConvertResponse :=
  match convert_image demoCodec demoHeicFile with
  | .ok r => r
  | .error _ => ⟨false, none, []⟩

/-- The successful `/convert-jpeg` response for the demonstration upload. -/
def demoJpegResp : ConvertResponse :=
  match convert_jpeg_image demoCodec demoJpegFile with
  | .ok r => r
  | .error _ => ⟨false, none, []⟩

/-- The successful pipeline output for the demonstration upload. -/
def demoVariants : List (String × Variant) :=
  match convertPipeline demoCodec [1, 2, 3] "photo.heic" with
  | .ok v => v
  | .error _ => []

/-! ## Inversion lemmas -/

/-- Inverting a successful run of the shared conversion pipeline. -/
theorem convertPipeline_ok {codec : Codec} {data : List ℕ} {filename : String}
    {vs : List (String × Variant)}
    (h : convertPipeline codec data filename = .ok vs) :
    ∃ img fd td,
      codec.decode data = .ok img ∧
      codec.encodeAVIF (normalizeMode img) 80 6 = .ok fd ∧
      codec.encodeAVIF (normalizeMode img).thumbnailTo300 80 6 = .ok td ∧
      data.length ≠ 0 ∧
      vs = [("full", ⟨fd, pyStem filename ++ ".avif", fd.length⟩),
            ("thumbnail", ⟨td, pyStem filename ++ "_thumb.avif", td.length⟩)] := by
  unfold convertPipeline at h
  split at h
  · exact absurd h (by simp)
  next img0 hd =>
    split at h
    · exact absurd h (by simp)
    next fd hf =>
      split at h
      · exact absurd h (by simp)
      next td ht =>
        split at h
        · exact absurd h (by simp)
        next q hr =>
          have hnz : data.length ≠ 0 := by
            intro h0
            rw [h0] at hr
            simp [compressionRatio] at hr
          exact ⟨img0, fd, td, hd, hf, ht, hnz, by simpa using h.symm⟩

/-- Inverting a successful `convert_heic_to_avif_bytes` call. -/
theorem convert_heic_bytes_ok {codec : Codec} {data : List ℕ} {fn : String}
    {vs : List (String × Variant)}
    (h : convert_heic_to_avif_bytes codec data fn = .ok vs) :
    convertPipeline codec data fn = .ok vs := by
  unfold convert_heic_to_avif_bytes at h
  split at h
  next v hp => rw [hp]; simpa using h
  next e hp => exact absurd h (by simp)

/-- Inverting a successful `/convert` response. -/
theorem convert_image_ok {codec : Codec} {f : UploadFile} {r : ConvertResponse}
    (h : convert_image codec f = .ok r) :
    ∃ vs, convertPipeline codec f.content (pyOrStr f.filename "image") = .ok vs ∧
      r = { success := true, original_filename := f.filename,
            variants := vs.map mkVariantJSON } := by
  unfold convert_image at h
  split at h
  · exact absurd h (by simp)
  next u hv =>
    split at h
    · exact absurd h (by simp)
    next vs hc =>
      exact ⟨vs, convert_heic_bytes_ok hc, by simpa using h.symm⟩

/-- Inverting a successful `/convert-jpeg` response. -/
theorem convert_jpeg_image_ok {codec : Codec} {f : UploadFile} {r : ConvertResponse}
    (h : convert_jpeg_image codec f = .ok r) :
    ∃ vs, convertPipeline codec f.content (pyOrStr f.filename "image") = .ok vs ∧
      r = { success := true, original_filename := f.filename,
            variants := vs.map mkVariantJSON } := by
  unfold convert_jpeg_image at h
  split at h
  · exact absurd h (by simp)
  next u hv =>
    split at h
    · exact absurd h (by simp)
    next vs hc =>
      exact ⟨vs, hc, by simpa using h.symm⟩

/-! ## Validation characterizations -/

/-- The code's size guard agrees with "declared size known and above the
limit" (the `file.size and ...` truthiness of `0` makes no difference,
since `0` never exceeds the limit). -/
theorem pySizeCheckFails_eq (sz : Option ℕ) :
    pySizeCheckFails sz = sizeKnownExceeds sz := by
  cases sz with
  | none => rfl
  | some n =>
    by_cases h : MAX_FILE_SIZE < n
    · have hn : n ≠ 0 := by
        intro h0
        rw [h0] at h
        exact absurd h (by decide)
      simp [pySizeCheckFails, sizeKnownExceeds, h, hn]
    · simp [pySizeCheckFails, sizeKnownExceeds, h]

/-- `validate_heic_file` succeeds exactly when the lowercased extension is
allowed and the size guard passes. -/
theorem validate_heic_ok_iff (f : UploadFile) :
    validate_heic_file f = .ok () ↔
      (lowerExt f ∈ ALLOWED_EXTENSIONS ∧ sizeKnownExceeds f.size = false) := by
  unfold validate_heic_file
  rw [pySizeCheckFails_eq]
  simp only [lowerExt]
  split
  next hc => exact iff_of_false (by simp) (fun hh => hc hh.1)
  next hc =>
    rw [not_not] at hc
    split
    next hs =>
      refine iff_of_false (by simp) (fun hh => ?_)
      rw [hh.2] at hs
      exact absurd hs (by decide)
    next hs =>
      simp only [Bool.not_eq_true] at hs
      exact iff_of_true rfl ⟨hc, hs⟩

/-- `validate_heic_file` rejects with the 400 invalid-type error exactly
when the lowercased extension is not allowed. -/
theorem validate_heic_400_iff (f : UploadFile) :
    validate_heic_file f = .error ⟨400, heicInvalidDetail⟩ ↔
      lowerExt f ∉ ALLOWED_EXTENSIONS := by
  unfold validate_heic_file
  simp only [lowerExt]
  split
  next hc => exact iff_of_true rfl hc
  next hc =>
    rw [not_not] at hc
    split
    next hs => exact iff_of_false (by decide) (fun hh => hh hc)
    next hs => exact iff_of_false (by decide) (fun hh => hh hc)

/-- `validate_heic_file` rejects with 413 exactly when the extension is
allowed but the declared size is known and above the limit. -/
theorem validate_heic_413_iff (f : UploadFile) :
    validate_heic_file f = .error ⟨413, "File too large. Maximum size: 50MB"⟩ ↔
      (lowerExt f ∈ ALLOWED_EXTENSIONS ∧ sizeKnownExceeds f.size = true) := by
  unfold validate_heic_file
  rw [pySizeCheckFails_eq]
  simp only [lowerExt]
  split
  next hc => exact iff_of_false (by decide) (fun hh => hc hh.1)
  next hc =>
    rw [not_not] at hc
    split
    next hs => exact iff_of_true rfl ⟨hc, hs⟩
    next hs =>
      simp only [Bool.not_eq_true] at hs
      refine iff_of_false (by decide) (fun hh => ?_)
      rw [hh.2] at hs
      exact absurd hs (by decide)

/-- `validate_jpeg_file` succeeds exactly when the filename is truthy, the
lowercased extension is `.jpg`/`.jpeg` and the size guard passes. -/
theorem validate_jpeg_ok_iff (f : UploadFile) :
    validate_jpeg_file f = .ok () ↔
      (pyTruthyOptStr f.filename = true ∧
        lowerExt f ∈ [".jpg", ".jpeg"] ∧ sizeKnownExceeds f.size = false) := by
  unfold validate_jpeg_file
  rw [pySizeCheckFails_eq]
  simp only [lowerExt]
  split
  next hc =>
    refine iff_of_false (by simp) (fun hh => ?_)
    rw [hh.1] at hc
    exact absurd hc (by decide)
  next hc =>
    simp only [Bool.not_eq_false] at hc
    split
    next he => exact iff_of_false (by simp) (fun hh => he hh.2.1)
    next he =>
      rw [not_not] at he
      split
      next hs =>
        refine iff_of_false (by simp) (fun hh => ?_)
        rw [hh.2.2] at hs
        exact absurd hs (by decide)
      next hs =>
        simp only [Bool.not_eq_true] at hs
        exact iff_of_true rfl ⟨hc, he, hs⟩

/-- `validate_jpeg_file` produces some 400 error exactly when the filename
is missing/empty or the lowercased extension is not `.jpg`/`.jpeg` (a
missing filename has empty extension, so the two characterizations agree
on it). -/
theorem validate_jpeg_400_iff (f : UploadFile) :
    (∃ d, validate_jpeg_file f = .error ⟨400, d⟩) ↔
      ¬(pyTruthyOptStr f.filename = true ∧ lowerExt f ∈ [".jpg", ".jpeg"]) := by
  unfold validate_jpeg_file
  simp only [lowerExt]
  split
  next hc =>
    refine iff_of_true ⟨"No filename provided", rfl⟩ (fun hh => ?_)
    rw [hh.1] at hc
    exact absurd hc (by decide)
  next hc =>
    simp only [Bool.not_eq_false] at hc
    split
    next he =>
      exact iff_of_true ⟨_, rfl⟩ (fun hh => he hh.2)
    next he =>
      rw [not_not] at he
      split
      next hs =>
        refine iff_of_false (fun hh => ?_) (not_not_intro ⟨hc, he⟩)
        obtain ⟨d, hd⟩ := hh
        exact absurd hd (by simp)
      next hs =>
        refine iff_of_false (fun hh => ?_) (not_not_intro ⟨hc, he⟩)
        obtain ⟨d, hd⟩ := hh
        exact absurd hd (by simp)

/-- `validate_jpeg_file` rejects with 413 exactly when the filename and
extension pass but the declared size is known and above the limit. -/
theorem validate_jpeg_413_iff (f : UploadFile) :
    validate_jpeg_file f = .error ⟨413, "File too large. Max size: 50MB"⟩ ↔
      (pyTruthyOptStr f.filename = true ∧
        lowerExt f ∈ [".jpg", ".jpeg"] ∧ sizeKnownExceeds f.size = true) := by
  unfold validate_jpeg_file
  rw [pySizeCheckFails_eq]
  simp only [lowerExt]
  split
  next hc =>
    refine iff_of_false (by decide) (fun hh => ?_)
    rw [hh.1] at hc
    exact absurd hc (by decide)
  next hc =>
    simp only [Bool.not_eq_false] at hc
    split
    next he =>
      refine iff_of_false (fun hh => ?_) (fun hh => he hh.2.1)
      exact absurd hh (by simp)
    next he =>
      rw [not_not] at he
      split
      next hs => exact iff_of_true rfl ⟨hc, he, hs⟩
      next hs =>
        simp only [Bool.not_eq_true] at hs
        refine iff_of_false (by decide) (fun hh => ?_)
        rw [hh.2.2] at hs
        exact absurd hs (by decide)

/-- Extension failure on the generic validator, for any size and content. -/
theorem validate_heic_ext_invalid {fn : Option String} (sz : Option ℕ) (c : List ℕ)
    (h : pyLower (pySuffix (pyOrStr fn "")) ∉ ALLOWED_EXTENSIONS) :
    validate_heic_file ⟨fn, sz, c⟩ = .error ⟨400, heicInvalidDetail⟩ := by
  unfold validate_heic_file
  split
  · rfl
  next hcond => exact absurd h hcond

/-- Missing/empty filename on the JPEG validator, for any size and content. -/
theorem validate_jpeg_no_filename {fn : Option String} (sz : Option ℕ) (c : List ℕ)
    (h : pyTruthyOptStr fn = false) :
    validate_jpeg_file ⟨fn, sz, c⟩ = .error ⟨400, "No filename provided"⟩ := by
  unfold validate_jpeg_file
  split
  · rfl
  next hcond => exact absurd h hcond

/-- Neither validator reads the uploaded bytes: validation is a function of
filename and declared size only. -/
theorem validate_ignores_content (f : UploadFile) (c : List ℕ) :
    validate_heic_file { f with content := c } = validate_heic_file f ∧
    validate_jpeg_file { f with content := c } = validate_jpeg_file f := by
  exact ⟨rfl, rfl⟩

/-! ## Claim C1 -/

/-- Claim C1 (code bug evidence): on a valid `photo.heic` upload handled by
a codec that decodes and encodes successfully, `POST /convert-stream`
streams the literal four-character string `"full"` — the first KEY of the
variants dict, produced by Python tuple-unpacking of the dict at
`src/app.py:381` — with `Content-Disposition` naming `thumbnail` (the
second key) and `Content-Length: 4`, instead of the full variant's AVIF
bytes and output filename that the spec promises. -/
theorem stream_endpoint_returns_dict_keys :
    convert_image_stream demoCodec demoHeicFile =
      .ok { body := "full", media_type := "image/avif",
            content_disposition := "attachment; filename=thumbnail",
            content_length := "4" } := by
  rfl

/-! ## Claim C2 -/

/-- Claim C2 counterexample: a JPEG upload whose decode raises `boom` is
answered by `/convert-jpeg` with HTTP 500 whose detail is
`"Internal server error"`, not a message of the form
`"Conversion failed: {detail}"` as the claim states for both paths. -/
theorem jpeg_error_detail_counterexample :
    convert_jpeg_image failCodec
        { filename := some "a.jpg", size := some 3, content := [1, 2, 3] } =
      .error ⟨500, "Internal server error"⟩ ∧
    "Internal server error".data.take 19 ≠ "Conversion failed: ".data := by
  exact ⟨by decide, by decide⟩

/-- Claim C2 (amended): when the conversion pipeline raises with message
`msg` on an upload that passes both validators, the HEIC-path entry points
(`convert_heic_to_avif_bytes`, `/convert`, `/convert-stream`) respond
HTTP 500 with detail `"Conversion failed: {msg}"`, while `/convert-jpeg`
responds HTTP 500 with detail `"Internal server error"` because
`convert_jpeg_to_avif_bytes` has no exception handler of its own. -/
theorem conversion_error_surfacing (codec : Codec) (f : UploadFile) (msg : String)
    (hv : validate_heic_file f = .ok ())
    (hvj : validate_jpeg_file f = .ok ())
    (hc : convertPipeline codec f.content (pyOrStr f.filename "image") = .error msg) :
    convert_heic_to_avif_bytes codec f.content (pyOrStr f.filename "image") =
      .error ⟨500, "Conversion failed: " ++ msg⟩ ∧
    convert_image codec f = .error ⟨500, "Conversion failed: " ++ msg⟩ ∧
    convert_image_stream codec f = .error ⟨500, "Conversion failed: " ++ msg⟩ ∧
    convert_jpeg_image codec f = .error ⟨500, "Internal server error"⟩ := by
  have hb : convert_heic_to_avif_bytes codec f.content (pyOrStr f.filename "image") =
      .error ⟨500, "Conversion failed: " ++ msg⟩ := by
    unfold convert_heic_to_avif_bytes
    rw [hc]
  refine ⟨hb, ?_, ?_, ?_⟩
  · unfold convert_image
    rw [hv, hb]
  · unfold convert_image_stream
    rw [hv, hb]
  · unfold convert_jpeg_image
    rw [hvj]
    unfold convert_jpeg_to_avif_bytes
    rw [hc]

/-- Witness for C2's amended theorem at the failing codec and a `a.jpg`
upload that passes both validators. -/
theorem conversion_error_surfacing_witness :
    convert_image failCodec { filename := some "a.jpg", size := some 3, content := [1, 2, 3] } =
      .error ⟨500, "Conversion failed: boom"⟩ ∧
    convert_jpeg_image failCodec { filename := some "a.jpg", size := some 3, content := [1, 2, 3] } =
      .error ⟨500, "Internal server error"⟩ := by
  have h := conversion_error_surfacing failCodec
    { filename := some "a.jpg", size := some 3, content := [1, 2, 3] } "boom"
    (by decide) (by decide) (by decide)
  exact ⟨h.2.1, h.2.2.2⟩

/-! ## Claim C9 -/

/-- Claim C9: an upload with an absent filename is treated by the generic
validator as the empty string, whose empty extension is not in the
allow-list, so `/convert` and `/convert-stream` reject it with HTTP 400
"Invalid file type"; the JPEG endpoint instead rejects it with HTTP 400
"No filename provided".  This holds for every codec, declared size and
byte content. -/
theorem missing_filename_rejection (codec : Codec) (sz : Option ℕ) (content : List ℕ) :
    convert_image codec ⟨none, sz, content⟩ = .error ⟨400, heicInvalidDetail⟩ ∧
    convert_image_stream codec ⟨none, sz, content⟩ = .error ⟨400, heicInvalidDetail⟩ ∧
    convert_jpeg_image codec ⟨none, sz, content⟩ = .error ⟨400, "No filename provided"⟩ := by
  have hext : pyLower (pySuffix (pyOrStr none "")) ∉ ALLOWED_EXTENSIONS := by decide
  have hv : validate_heic_file ⟨none, sz, content⟩ = .error ⟨400, heicInvalidDetail⟩ :=
    validate_heic_ext_invalid sz content hext
  have hvj : validate_jpeg_file ⟨none, sz, content⟩ =
      .error ⟨400, "No filename provided"⟩ :=
    validate_jpeg_no_filename sz content rfl
  refine ⟨?_, ?_, ?_⟩
  · unfold convert_image; rw [hv]
  · unfold convert_image_stream; rw [hv]
  · unfold convert_jpeg_image; rw [hvj]

/-! ## Claim C4 -/

/-- Claim C4 counterexample: the claimed "accepts if and only if the
extension is allowed" fails — `a.heic` has an allowed extension, yet an
upload declaring 62914560 bytes (60 MiB) is rejected (with 413), so
extension membership does not suffice for acceptance. -/
theorem validation_iff_counterexample :
    lowerExt { filename := some "a.heic", size := some 62914560, content := [] } ∈
        ALLOWED_EXTENSIONS ∧
    validate_heic_file { filename := some "a.heic", size := some 62914560, content := [] } =
      .error ⟨413, "File too large. Maximum size: 50MB"⟩ := by
  exact ⟨by decide, by decide⟩

/-- Claim C4 (amended): validation accepts exactly when the lowercased
extension is in the endpoint's allowed set AND the declared-size check
passes; an extension outside the set is rejected with HTTP 400 before any
conversion is attempted (for every codec) and regardless of the byte
content (validation never reads it).  On the JPEG endpoint a missing or
empty filename is likewise a 400, but with a missing-filename detail. -/
theorem extension_validation (f : UploadFile) (c : List ℕ) (codec : Codec) :
    (validate_heic_file f = .ok () ↔
      (lowerExt f ∈ ALLOWED_EXTENSIONS ∧ sizeKnownExceeds f.size = false)) ∧
    (validate_heic_file f = .error ⟨400, heicInvalidDetail⟩ ↔
      lowerExt f ∉ ALLOWED_EXTENSIONS) ∧
    (validate_jpeg_file f = .ok () ↔
      (pyTruthyOptStr f.filename = true ∧
        lowerExt f ∈ [".jpg", ".jpeg"] ∧ sizeKnownExceeds f.size = false)) ∧
    ((∃ d, validate_jpeg_file f = .error ⟨400, d⟩) ↔
      ¬(pyTruthyOptStr f.filename = true ∧ lowerExt f ∈ [".jpg", ".jpeg"])) ∧
    validate_heic_file { f with content := c } = validate_heic_file f ∧
    validate_jpeg_file { f with content := c } = validate_jpeg_file f ∧
    (lowerExt f ∉ ALLOWED_EXTENSIONS →
      convert_image codec f = .error ⟨400, heicInvalidDetail⟩ ∧
      convert_image_stream codec f = .error ⟨400, heicInvalidDetail⟩) := by
  refine ⟨validate_heic_ok_iff f, validate_heic_400_iff f, validate_jpeg_ok_iff f,
    validate_jpeg_400_iff f, rfl, rfl, fun hext => ?_⟩
  have hv := (validate_heic_400_iff f).mpr hext
  constructor
  · unfold convert_image; rw [hv]
  · unfold convert_image_stream; rw [hv]

/-- Witness for C4's amended theorem: a `photo.txt` upload is rejected by
the validator and by `/convert` with the 400 invalid-type error. -/
theorem extension_validation_witness :
    validate_heic_file { filename := some "photo.txt", size := none, content := [] } =
      .error ⟨400, heicInvalidDetail⟩ ∧
    convert_image demoCodec { filename := some "photo.txt", size := none, content := [] } =
      .error ⟨400, heicInvalidDetail⟩ := by
  have h := extension_validation
    { filename := some "photo.txt", size := none, content := [] } [] demoCodec
  exact ⟨h.2.1.mpr (by decide), (h.2.2.2.2.2.2 (by decide)).1⟩

/-! ## Claim C5 -/

/-- Claim C5 counterexample: a declared size of 62914560 bytes (60 MiB)
does NOT always produce a 413 — a `photo.txt` upload of that size is
rejected with 400 (invalid type), because the extension check runs first. -/
theorem oversize_bad_extension_counterexample :
    sizeKnownExceeds (some 62914560) = true ∧
    validate_heic_file { filename := some "photo.txt", size := some 62914560, content := [] } =
      .error ⟨400, heicInvalidDetail⟩ := by
  exact ⟨by decide, by decide⟩

/-- Claim C5 (amended): for uploads that pass the extension check, the
validators reject with HTTP 413 exactly when the declared size is known
and exceeds `MAX_FILE_SIZE` = 52428800 bytes; a size at most the limit, or
absent, passes validation entirely.  The 413 happens at the endpoints for
every codec, i.e. before any decode is attempted. -/
theorem size_validation (f : UploadFile) (codec : Codec) :
    (lowerExt f ∈ ALLOWED_EXTENSIONS →
      (validate_heic_file f = .error ⟨413, "File too large. Maximum size: 50MB"⟩ ↔
        sizeKnownExceeds f.size = true) ∧
      (sizeKnownExceeds f.size = false → validate_heic_file f = .ok ()) ∧
      (sizeKnownExceeds f.size = true →
        convert_image codec f = .error ⟨413, "File too large. Maximum size: 50MB"⟩ ∧
        convert_image_stream codec f =
          .error ⟨413, "File too large. Maximum size: 50MB"⟩)) ∧
    (pyTruthyOptStr f.filename = true → lowerExt f ∈ [".jpg", ".jpeg"] →
      (validate_jpeg_file f = .error ⟨413, "File too large. Max size: 50MB"⟩ ↔
        sizeKnownExceeds f.size = true) ∧
      (sizeKnownExceeds f.size = false → validate_jpeg_file f = .ok ()) ∧
      (sizeKnownExceeds f.size = true →
        convert_jpeg_image codec f = .error ⟨413, "File too large. Max size: 50MB"⟩)) := by
  constructor
  · intro hext
    refine ⟨?_, ?_, ?_⟩
    · constructor
      · intro h; exact ((validate_heic_413_iff f).mp h).2
      · intro h; exact (validate_heic_413_iff f).mpr ⟨hext, h⟩
    · intro h; exact (validate_heic_ok_iff f).mpr ⟨hext, h⟩
    · intro h
      have hv := (validate_heic_413_iff f).mpr ⟨hext, h⟩
      constructor
      · unfold convert_image; rw [hv]
      · unfold convert_image_stream; rw [hv]
  · intro htr hext
    refine ⟨?_, ?_, ?_⟩
    · constructor
      · intro h; exact ((validate_jpeg_413_iff f).mp h).2.2
      · intro h; exact (validate_jpeg_413_iff f).mpr ⟨htr, hext, h⟩
    · intro h; exact (validate_jpeg_ok_iff f).mpr ⟨htr, hext, h⟩
    · intro h
      have hv := (validate_jpeg_413_iff f).mpr ⟨htr, hext, h⟩
      unfold convert_jpeg_image; rw [hv]

/-- Witness for C5's amended theorem: a 60 MiB `a.jpg` upload draws 413
from both validators and both endpoints. -/
theorem size_validation_witness :
    validate_heic_file { filename := some "a.jpg", size := some 62914560, content := [] } =
      .error ⟨413, "File too large. Maximum size: 50MB"⟩ ∧
    convert_jpeg_image demoCodec
        { filename := some "a.jpg", size := some 62914560, content := [] } =
      .error ⟨413, "File too large. Max size: 50MB"⟩ := by
  have h := size_validation
    { filename := some "a.jpg", size := some 62914560, content := [] } demoCodec
  exact ⟨((h.1 (by decide)).1).mpr (by decide),
    (h.2 (by decide) (by decide)).2.2 (by decide)⟩

/-! ## Claim C3 -/

/-- Claim C3: whenever a JSON endpoint (`/convert` or `/convert-jpeg`)
succeeds, the response carries exactly two variants, in order: `full`
named `{stem}.avif` and `thumbnail` named `{stem}_thumb.avif`, where the
stem is the input filename's stem (of `"image"` when the filename is
missing or empty). -/
theorem json_variants_filenames (codec : Codec) (f : UploadFile)
    (r rj : ConvertResponse) :
    (convert_image codec f = .ok r →
      r.variants.map (fun v => (v.variant, v.filename)) =
        [("full", pyStem (pyOrStr f.filename "image") ++ ".avif"),
         ("thumbnail", pyStem (pyOrStr f.filename "image") ++ "_thumb.avif")]) ∧
    (convert_jpeg_image codec f = .ok rj →
      rj.variants.map (fun v => (v.variant, v.filename)) =
        [("full", pyStem (pyOrStr f.filename "image") ++ ".avif"),
         ("thumbnail", pyStem (pyOrStr f.filename "image") ++ "_thumb.avif")]) := by
  constructor
  · intro h
    obtain ⟨vs, hp, hr⟩ := convert_image_ok h
    obtain ⟨img, fd, td, _, _, _, _, hvs⟩ := convertPipeline_ok hp
    rw [hr, hvs]
    simp [mkVariantJSON]
  · intro h
    obtain ⟨vs, hp, hr⟩ := convert_jpeg_image_ok h
    obtain ⟨img, fd, td, _, _, _, _, hvs⟩ := convertPipeline_ok hp
    rw [hr, hvs]
    simp [mkVariantJSON]

/-- Witness for C3 at the demonstration codec and upload `photo.heic`. -/
theorem json_variants_filenames_witness :
    demoResp.variants.map (fun v => (v.variant, v.filename)) =
      [("full", "photo.avif"), ("thumbnail", "photo_thumb.avif")] := by
  have h := (json_variants_filenames demoCodec demoHeicFile demoResp demoResp).1
    (by decide)
  simpa using h

/-! ## Claim C7 -/

/-- Claim C7: the mode normalization both converters run before encoding
leaves an RGB or RGBA image untouched and converts every other mode to
RGB (preserving the dimensions); moreover, on any successful pipeline run
the full variant's bytes are exactly the encoder's output on the
mode-normalized decoded image. -/
theorem mode_normalization (img : PILImage) (codec : Codec) (data : List ℕ)
    (fn : String) (vs : List (String × Variant)) (img0 : PILImage) :
    ((img.mode = "RGB" ∨ img.mode = "RGBA") → normalizeMode img = img) ∧
    (¬(img.mode = "RGB" ∨ img.mode = "RGBA") →
      (normalizeMode img).mode = "RGB" ∧
      (normalizeMode img).width = img.width ∧
      (normalizeMode img).height = img.height) ∧
    (codec.decode data = .ok img0 → convertPipeline codec data fn = .ok vs →
      ∃ fd, codec.encodeAVIF (normalizeMode img0) 80 6 = .ok fd ∧
        (vs.map (fun p => p.2.data)).head? = some fd) := by
  refine ⟨?_, ?_, ?_⟩
  · intro h
    unfold normalizeMode
    rw [if_pos h]
  · intro h
    unfold normalizeMode
    rw [if_neg h]
    exact ⟨rfl, rfl, rfl⟩
  · intro hd hp
    obtain ⟨img1, fd, td, hd1, hf, ht, hnz, hvs⟩ := convertPipeline_ok hp
    rw [hd] at hd1
    cases hd1
    exact ⟨fd, hf, by rw [hvs]; rfl⟩

/-- Witness for C7: a palette-mode image is normalized to RGB, and on the
demonstration run the full variant's bytes come from encoding the
normalized decoded image. -/
theorem mode_normalization_witness :
    (normalizeMode { width := 10, height := 10, mode := "P" }).mode = "RGB" ∧
    normalizeMode { width := 10, height := 10, mode := "RGBA" } =
      { width := 10, height := 10, mode := "RGBA" } ∧
    (∃ fd, demoCodec.encodeAVIF (normalizeMode ⟨100, 80, "RGB"⟩) 80 6 = .ok fd ∧
      (demoVariants.map (fun p => p.2.data)).head? = some fd) := by
  refine ⟨?_, ?_, ?_⟩
  · exact ((mode_normalization ⟨10, 10, "P"⟩ demoCodec [1, 2, 3] "photo.heic"
      demoVariants ⟨100, 80, "RGB"⟩).2.1 (by decide)).1
  · exact (mode_normalization ⟨10, 10, "RGBA"⟩ demoCodec [1, 2, 3] "photo.heic"
      demoVariants ⟨100, 80, "RGB"⟩).1 (by decide)
  · exact (mode_normalization ⟨10, 10, "P"⟩ demoCodec [1, 2, 3] "photo.heic"
      demoVariants ⟨100, 80, "RGB"⟩).2.2 (by decide) (by decide)

/-! ## Claim C8 -/

/-- Claim C8: the compression statistic divides by the input byte length
with no zero guard, so it fails on divisor 0; consequently, for any codec
that decodes an empty upload successfully (and whose encodes succeed), the
HEIC conversion reaches the statistics step and dies there — surfacing as
HTTP 500 "Conversion failed: division by zero". -/
theorem compression_ratio_division_by_zero (codec : Codec) (img : PILImage)
    (fn : String) (fd td : List ℕ)
    (hd : codec.decode [] = .ok img)
    (hf : codec.encodeAVIF (normalizeMode img) 80 6 = .ok fd)
    (ht : codec.encodeAVIF (normalizeMode img).thumbnailTo300 80 6 = .ok td) :
    (∀ out : ℕ, compressionRatio out 0 = .error "division by zero") ∧
    convert_heic_to_avif_bytes codec [] fn =
      .error ⟨500, "Conversion failed: division by zero"⟩ := by
  constructor
  · intro out
    rfl
  · unfold convert_heic_to_avif_bytes convertPipeline
    simp only [hd, hf, ht]
    rfl

/-- Witness for C8 at the demonstration codec, whose decoder accepts the
empty upload. -/
theorem compression_ratio_division_by_zero_witness :
    compressionRatio 5 0 = .error "division by zero" ∧
    convert_heic_to_avif_bytes demoCodec [] "a.heic" =
      .error ⟨500, "Conversion failed: division by zero"⟩ := by
  have h := compression_ratio_division_by_zero demoCodec ⟨100, 80, "RGB"⟩ "a.heic"
    [100, 80] [100, 80] (by decide) (by decide) (by decide)
  exact ⟨h.1 5, h.2⟩

/-! ## Base64 round-trip -/

/-- The alphabet value map inverts the alphabet on six-bit values. -/
theorem b64Val_b64Char : ∀ n < 64, b64Val (b64Char n) = n := by decide

/-- No alphabet character is the padding character. -/
theorem b64Char_ne_pad : ∀ n < 64, b64Char n ≠ '=' := by decide

/-- Decoding inverts encoding on byte lists (values below 256); fuel-based
strong induction over three-byte chunks. -/
theorem b64_roundtrip_aux :
    ∀ (n : ℕ) (bs : List ℕ), bs.length ≤ n → (∀ x ∈ bs, x < 256) →
      b64decodeList (b64encodeList bs) = bs := by
  intro n
  induction n with
  | zero =>
    intro bs hlen _
    have hnil : bs = [] := List.eq_nil_of_length_eq_zero (Nat.le_zero.mp hlen)
    rw [hnil]
    rfl
  | succ n ih =>
    intro bs hlen hb
    rcases bs with _ | ⟨a, _ | ⟨b, _ | ⟨c, rest⟩⟩⟩
    · rfl
    · have ha : a < 256 := hb a (by simp)
      have h1 := b64Val_b64Char (a / 4) (by omega)
      have h2 := b64Val_b64Char (a % 4 * 16) (by omega)
      simp [b64encodeList, b64decodeList, h1, h2]
      omega
    · have ha : a < 256 := hb a (by simp)
      have hb2 : b < 256 := hb b (by simp)
      have h1 := b64Val_b64Char (a / 4) (by omega)
      have h2 := b64Val_b64Char (a % 4 * 16 + b / 16) (by omega)
      have h3 := b64Val_b64Char (b % 16 * 4) (by omega)
      have hpad : b64Char (b % 16 * 4) ≠ '=' := b64Char_ne_pad (b % 16 * 4) (by omega)
      simp [b64encodeList, b64decodeList, h1, h2, h3, hpad]
      omega
    · have ha : a < 256 := hb a (by simp)
      have hb2 : b < 256 := hb b (by simp)
      have hc : c < 256 := hb c (by simp)
      have hrest : ∀ x ∈ rest, x < 256 := fun x hx => hb x (by simp [hx])
      have hlen' : rest.length ≤ n := by
        simp only [List.length_cons] at hlen
        omega
      have hpad : b64Char (c % 64) ≠ '=' := b64Char_ne_pad (c % 64) (by omega)
      have h1 := b64Val_b64Char (a / 4) (by omega)
      have h2 := b64Val_b64Char (a % 4 * 16 + b / 16) (by omega)
      have h3 := b64Val_b64Char (b % 16 * 4 + c / 64) (by omega)
      have h4 := b64Val_b64Char (c % 64) (by omega)
      have hrec := ih rest hlen' hrest
      simp [b64encodeList, b64decodeList, hpad, h1, h2, h3, h4, hrec]
      omega

/-- Decoding the base64 string of a byte list recovers the bytes. -/
theorem b64decode_b64encode (l : List ℕ) (hb : ∀ x ∈ l, x < 256) :
    b64decode (b64encode l) = l :=
  b64_roundtrip_aux l.length l le_rfl hb

/-! ## Claim C10 -/

/-- Claim C10: in every successful JSON response of `/convert` and
`/convert-jpeg` (for a codec producing genuine bytes, i.e. values below
256), each variant's `size` field equals the byte length of the
base64-decoded `content` field — both derive from the same encoded
payload. -/
theorem size_matches_base64_content (codec : Codec) (f : UploadFile)
    (r rj : ConvertResponse)
    (hby : ∀ img q s bs, codec.encodeAVIF img q s = .ok bs → ∀ x ∈ bs, x < 256) :
    (convert_image codec f = .ok r →
      ∀ v ∈ r.variants, (b64decode v.content).length = v.size) ∧
    (convert_jpeg_image codec f = .ok rj →
      ∀ v ∈ rj.variants, (b64decode v.content).length = v.size) := by
  constructor
  · intro h v hv
    obtain ⟨vs, hp, hr⟩ := convert_image_ok h
    obtain ⟨img, fd, td, hd, hf, ht, hnz, hvs⟩ := convertPipeline_ok hp
    subst hr
    rw [hvs] at hv
    simp [mkVariantJSON] at hv
    rcases hv with rfl | rfl
    · show (b64decode (b64encode fd)).length = fd.length
      rw [b64decode_b64encode fd (hby _ _ _ _ hf)]
    · show (b64decode (b64encode td)).length = td.length
      rw [b64decode_b64encode td (hby _ _ _ _ ht)]
  · intro h v hv
    obtain ⟨vs, hp, hr⟩ := convert_jpeg_image_ok h
    obtain ⟨img, fd, td, hd, hf, ht, hnz, hvs⟩ := convertPipeline_ok hp
    subst hr
    rw [hvs] at hv
    simp [mkVariantJSON] at hv
    rcases hv with rfl | rfl
    · show (b64decode (b64encode fd)).length = fd.length
      rw [b64decode_b64encode fd (hby _ _ _ _ hf)]
    · show (b64decode (b64encode td)).length = td.length
      rw [b64decode_b64encode td (hby _ _ _ _ ht)]

/-- Witness for C10 on the demonstration `/convert` response. -/
theorem size_matches_base64_content_witness :
    demoResp.variants.all
      (fun v => (b64decode v.content).length == v.size) = true := by
  have h := (size_matches_base64_content demoCodec demoHeicFile demoResp demoResp
    (fun img q s bs hbs => by
      simp only [demoCodec] at hbs
      injection hbs with h'
      intro x hx
      rw [← h'] at hx
      simp at hx
      rcases hx with h1 | h1 <;> omega)).1 (by decide)
  rw [List.all_eq_true]
  intro v hv
  exact beq_iff_eq.mpr (h v hv)

/-! ## Thumbnail geometry -/

/-- `roundAspect` never exceeds a positive integer bound that dominates its
input. -/
theorem roundAspect_le (q : ℚ) (key : ℕ → ℚ) (m : ℕ) (hm : 0 < m) (hq : q ≤ m) :
    roundAspect q key ≤ m := by
  unfold roundAspect
  have hf : ⌊q⌋.toNat ≤ m := by
    have h1 : ⌊q⌋ ≤ (m : ℤ) := by
      have h2 := Int.floor_le_floor hq
      simpa using h2
    omega
  have hc : ⌈q⌉.toNat ≤ m := by
    have h1 : ⌈q⌉ ≤ (m : ℤ) := by
      rw [Int.ceil_le]
      exact_mod_cast hq
    omega
  split <;> omega

/-- `roundAspect` lands within one unit of its positive input. -/
theorem roundAspect_near (q : ℚ) (key : ℕ → ℚ) (hq : 0 < q) :
    |(roundAspect q key : ℚ) - q| ≤ 1 := by
  unfold roundAspect
  rcases le_or_lt 1 q with h1 | h1
  · have hf1 : (1 : ℤ) ≤ ⌊q⌋ := by
      rw [Int.le_floor]
      exact_mod_cast h1
    have hfle : ((⌊q⌋ : ℤ) : ℚ) ≤ q := Int.floor_le q
    have hflt : q < ⌊q⌋ + 1 := Int.lt_floor_add_one q
    have hcge : q ≤ ((⌈q⌉ : ℤ) : ℚ) := Int.le_ceil q
    have hclt : ((⌈q⌉ : ℤ) : ℚ) < q + 1 := Int.ceil_lt_add_one q
    have hc1 : (1 : ℤ) ≤ ⌈q⌉ := le_trans hf1 (Int.floor_le_ceil q)
    have hfn : 1 ≤ ⌊q⌋.toNat := by omega
    have hcn : 1 ≤ ⌈q⌉.toNat := by omega
    have ef : ((⌊q⌋.toNat : ℕ) : ℚ) = ((⌊q⌋ : ℤ) : ℚ) := by
      have h2 : ((⌊q⌋.toNat : ℕ) : ℤ) = ⌊q⌋ := Int.toNat_of_nonneg (by omega)
      exact_mod_cast h2
    have ec : ((⌈q⌉.toNat : ℕ) : ℚ) = ((⌈q⌉ : ℤ) : ℚ) := by
      have h2 : ((⌈q⌉.toNat : ℕ) : ℤ) = ⌈q⌉ := Int.toNat_of_nonneg (by omega)
      exact_mod_cast h2
    split
    · rw [max_eq_left hfn, abs_sub_le_iff]
      constructor
      · rw [ef]; linarith
      · rw [ef]; linarith
    · rw [max_eq_left hcn, abs_sub_le_iff]
      constructor
      · rw [ec]; linarith
      · rw [ec]; linarith
  · have hf0 : ⌊q⌋ = 0 := by
      rw [Int.floor_eq_zero_iff]
      exact ⟨le_of_lt hq, h1⟩
    have hc1 : ⌈q⌉ = 1 := by
      have hle : ⌈q⌉ ≤ 1 := by
        rw [Int.ceil_le]
        exact_mod_cast le_of_lt h1
      have hgt : 0 < ⌈q⌉ := by
        rw [Int.lt_ceil]
        exact_mod_cast hq
      omega
    rw [hf0, hc1]
    have e0 : (0 : ℤ).toNat = 0 := rfl
    have e1 : (1 : ℤ).toNat = 1 := rfl
    rw [e0, e1]
    split
    · rw [show max 0 1 = 1 from rfl, abs_sub_le_iff]
      constructor <;> push_cast <;> linarith
    · rw [show max 1 1 = 1 from rfl, abs_sub_le_iff]
      constructor <;> push_cast <;> linarith

/-! ## Claim C6 -/

/-- Claim C6: for every positive source size, the thumbnail box computation
used by both converters yields dimensions that (i) never exceed 300 px,
(ii) never exceed the source dimensions (no upscaling), (iii) leave an
image already inside the box unchanged — in particular 100×80 stays
100×80 — and (iv) preserve the source aspect ratio up to pixel rounding:
either the image is unchanged, or the constraining side is exactly 300 and
the other side is within one pixel of the exact aspect-scaled value
(stated multiplied through by the denominator). -/
theorem thumbnail_dimensions (w h : ℕ) (hw : 0 < w) (hh : 0 < h) :
    (pilThumbnail w h).1 ≤ 300 ∧ (pilThumbnail w h).2 ≤ 300 ∧
    (pilThumbnail w h).1 ≤ w ∧ (pilThumbnail w h).2 ≤ h ∧
    (w ≤ 300 → h ≤ 300 → pilThumbnail w h = (w, h)) ∧
    (pilThumbnail w h = (w, h) ∨
      ((pilThumbnail w h).2 = 300 ∧
        |((pilThumbnail w h).1 : ℚ) * h - 300 * w| ≤ (h : ℚ)) ∨
      ((pilThumbnail w h).1 = 300 ∧
        |((pilThumbnail w h).2 : ℚ) * w - 300 * h| ≤ (w : ℚ))) := by
  by_cases hsmall : 300 ≥ w ∧ 300 ≥ h
  · have he : pilThumbnail w h = (w, h) := by
      unfold pilThumbnail
      rw [if_pos hsmall]
    rw [he]
    exact ⟨hsmall.1, hsmall.2, le_rfl, le_rfl, fun _ _ => rfl, Or.inl rfl⟩
  · have hwq : (0 : ℚ) < w := by exact_mod_cast hw
    have hhq : (0 : ℚ) < h := by exact_mod_cast hh
    by_cases hcmp : w ≤ h
    · -- the height is the constraining side and exceeds 300
      have h300 : 300 < h := by
        by_contra hle
        push_neg at hle
        exact hsmall ⟨le_trans hcmp hle, hle⟩
      have hcond : (300 : ℚ) / 300 ≥ (w : ℚ) / (h : ℚ) := by
        rw [ge_iff_le, div_self (by norm_num : (300 : ℚ) ≠ 0), div_le_one hhq]
        exact_mod_cast hcmp
      have he : pilThumbnail w h =
          (roundAspect (300 * ((w : ℚ) / (h : ℚ)))
            (fun n => |(w : ℚ) / (h : ℚ) - (n : ℚ) / 300|), 300) := by
        unfold pilThumbnail
        rw [if_neg hsmall, if_pos hcond]
      have h1 : (pilThumbnail w h).1 =
          roundAspect (300 * ((w : ℚ) / (h : ℚ)))
            (fun n => |(w : ℚ) / (h : ℚ) - (n : ℚ) / 300|) := by
        rw [he]
      have h2 : (pilThumbnail w h).2 = 300 := by
        rw [he]
      have hq0 : 0 < 300 * ((w : ℚ) / (h : ℚ)) := by positivity
      have hqle300 : 300 * ((w : ℚ) / (h : ℚ)) ≤ ((300 : ℕ) : ℚ) := by
        push_cast
        calc 300 * ((w : ℚ) / h) ≤ 300 * 1 := by
              apply mul_le_mul_of_nonneg_left _ (by norm_num)
              rw [div_le_one hhq]
              exact_mod_cast hcmp
          _ = 300 := by norm_num
      have hqlew : 300 * ((w : ℚ) / (h : ℚ)) ≤ (w : ℚ) := by
        rw [show (300 : ℚ) * ((w : ℚ) / h) = 300 * w / h from by ring,
          div_le_iff₀ hhq]
        calc (300 : ℚ) * w = w * 300 := by ring
          _ ≤ w * h := by
              apply mul_le_mul_of_nonneg_left _ (le_of_lt hwq)
              exact_mod_cast le_of_lt h300
      have hqh : 300 * ((w : ℚ) / (h : ℚ)) * h = 300 * w := by
        field_simp
      refine ⟨?_, ?_, ?_, ?_, ?_, ?_⟩
      · rw [h1]
        exact roundAspect_le _ _ 300 (by norm_num) hqle300
      · rw [h2]
      · rw [h1]
        have hwn : 0 < w := hw
        have hq' : 300 * ((w : ℚ) / (h : ℚ)) ≤ ((w : ℕ) : ℚ) := by
          exact_mod_cast hqlew
        exact roundAspect_le _ _ w hwn hq'
      · rw [h2]
        exact le_of_lt h300
      · intro _ hle
        exact absurd hle (by omega)
      · refine Or.inr (Or.inl ⟨h2, ?_⟩)
        rw [h1]
        have hdiff :
            ((roundAspect (300 * ((w : ℚ) / (h : ℚ)))
              (fun n => |(w : ℚ) / (h : ℚ) - (n : ℚ) / 300|) : ℕ) : ℚ) * h -
                300 * w =
            (((roundAspect (300 * ((w : ℚ) / (h : ℚ)))
              (fun n => |(w : ℚ) / (h : ℚ) - (n : ℚ) / 300|) : ℕ) : ℚ) -
                300 * ((w : ℚ) / (h : ℚ))) * h := by
          rw [sub_mul, hqh]
        rw [hdiff, abs_mul, abs_of_pos hhq]
        calc _ * (h : ℚ) ≤ 1 * h :=
              mul_le_mul_of_nonneg_right (roundAspect_near _ _ hq0) (le_of_lt hhq)
          _ = h := one_mul _
    · -- the width is the constraining side and exceeds 300
      push_neg at hcmp
      have w300 : 300 < w := by
        by_contra hle
        push_neg at hle
        exact hsmall ⟨hle, le_trans (le_of_lt hcmp) hle⟩
      have hcond : ¬ ((300 : ℚ) / 300 ≥ (w : ℚ) / (h : ℚ)) := by
        rw [ge_iff_le, div_self (by norm_num : (300 : ℚ) ≠ 0), not_le,
          lt_div_iff₀ hhq, one_mul]
        exact_mod_cast hcmp
      have he : pilThumbnail w h =
          (300, roundAspect (300 / ((w : ℚ) / (h : ℚ)))
            (fun n => if n = 0 then 0
              else |(w : ℚ) / (h : ℚ) - (300 : ℚ) / (n : ℚ)|)) := by
        unfold pilThumbnail
        rw [if_neg hsmall, if_neg hcond]
      have h1 : (pilThumbnail w h).1 = 300 := by
        rw [he]
      have h2 : (pilThumbnail w h).2 =
          roundAspect (300 / ((w : ℚ) / (h : ℚ)))
            (fun n => if n = 0 then 0
              else |(w : ℚ) / (h : ℚ) - (300 : ℚ) / (n : ℚ)|) := by
        rw [he]
      have hqeq : (300 : ℚ) / ((w : ℚ) / (h : ℚ)) = 300 * h / w := by
        field_simp
      have hq0 : 0 < (300 : ℚ) / ((w : ℚ) / (h : ℚ)) := by
        rw [hqeq]
        positivity
      have hqle300 : (300 : ℚ) / ((w : ℚ) / (h : ℚ)) ≤ ((300 : ℕ) : ℚ) := by
        rw [hqeq]
        push_cast
        rw [div_le_iff₀ hwq]
        apply mul_le_mul_of_nonneg_left _ (by norm_num)
        exact_mod_cast le_of_lt hcmp
      have hqleh : (300 : ℚ) / ((w : ℚ) / (h : ℚ)) ≤ ((h : ℕ) : ℚ) := by
        rw [hqeq]
        rw [div_le_iff₀ hwq]
        calc (300 : ℚ) * h = h * 300 := by ring
          _ ≤ h * w := by
              apply mul_le_mul_of_nonneg_left _ (le_of_lt hhq)
              exact_mod_cast le_of_lt w300
      have hqw : (300 : ℚ) / ((w : ℚ) / (h : ℚ)) * w = 300 * h := by
        rw [hqeq]
        field_simp
      refine ⟨?_, ?_, ?_, ?_, ?_, ?_⟩
      · rw [h1]
      · rw [h2]
        exact roundAspect_le _ _ 300 (by norm_num) hqle300
      · rw [h1]
        exact le_of_lt w300
      · rw [h2]
        exact roundAspect_le _ _ h hh hqleh
      · intro hle _
        exact absurd hle (by omega)
      · refine Or.inr (Or.inr ⟨h1, ?_⟩)
        rw [h2]
        have hdiff :
            ((roundAspect ((300 : ℚ) / ((w : ℚ) / (h : ℚ)))
              (fun n => if n = 0 then 0
                else |(w : ℚ) / (h : ℚ) - (300 : ℚ) / (n : ℚ)|) : ℕ) : ℚ) * w -
                300 * h =
            (((roundAspect ((300 : ℚ) / ((w : ℚ) / (h : ℚ)))
              (fun n => if n = 0 then 0
                else |(w : ℚ) / (h : ℚ) - (300 : ℚ) / (n : ℚ)|) : ℕ) : ℚ) -
                (300 : ℚ) / ((w : ℚ) / (h : ℚ))) * w := by
          rw [sub_mul, hqw]
        rw [hdiff, abs_mul, abs_of_pos hwq]
        calc _ * (w : ℚ) ≤ 1 * w :=
              mul_le_mul_of_nonneg_right (roundAspect_near _ _ hq0) (le_of_lt hwq)
          _ = w := one_mul _

/-- Witness for C6: the 100×80 input is left unchanged (no upscaling) and
fits the 300 px box. -/
theorem thumbnail_dimensions_witness :
    pilThumbnail 100 80 = (100, 80) ∧
    (pilThumbnail 100 80).1 ≤ 300 ∧ (pilThumbnail 100 80).2 ≤ 300 :=
  have h := thumbnail_dimensions 100 80 (by decide) (by decide)
  ⟨h.2.2.2.2.1 (by decide) (by decide), h.1, h.2.1⟩

end Any2Avif
